import Mathlib

/-!
# memrollup-stats: sampling coordinator, sample source and statistics

A shallow embedding of the Go sources

* `src/pkg/memory/collector.go`   (`MemoryMetrics`, `RealMemoryCollector.Collect`)
* `src/cmd/memrollup-stats/main.go` (`monitorMemory`, the tail of `main`)
* `src/pkg/output/formatter.go`   (`calculateStats`, `Format`, `WriteResults`)

Conventions of the embedding.

* `int64` values are `Int`; every `int64` addition of the source is wrapped with
  `wrap64` (two's complement).
* Go strings are `List Char`; `strings.Split`, `strings.Fields` and
  `strconv.ParseInt` are modelled from the Go standard library's documented behaviour.
* `time.Time` is an `Int` count of nanoseconds.
* `float64` is idealised as a linearly ordered field `F` (exact arithmetic, rounding is
  not modelled); `math.Sqrt` is a parameter `sqrt : F → F`, instantiated with `Real.sqrt`
  in the theorems.
* The `select` loop of `monitorMemory` consumes a list of events, one per iteration, in
  the order in which the Go runtime delivered them.
-/

namespace MemrollupStats

/-! ## Machine integers and time -/

/-- Two's-complement wrap-around of an integer into the `int64` range. -/
def wrap64 (x : Int) : Int := (x + 2 ^ 63) % 2 ^ 64 - 2 ^ 63

/-- The value is representable as an `int64`. -/
def inInt64 (x : Int) : Prop := -(2 ^ 63) ≤ x ∧ x < 2 ^ 63

instance (x : Int) : Decidable (inInt64 x) := by
  unfold inInt64; infer_instance

/-- A `time.Time`, as nanoseconds since a fixed epoch. -/
abbrev Time := Int

/-! ## `pkg/memory`: the data model -/

/-- `memory.MemoryMetrics`: one slice per metric plus the capture times. -/
structure MemoryMetrics where
  RSS : List Int := []
  PSS : List Int := []
  USS : List Int := []
  SharedClean : List Int := []
  SharedDirty : List Int := []
  PrivateClean : List Int := []
  PrivateDirty : List Int := []
  Timestamps : List Time := []
deriving DecidableEq, Repr

/-- The failure of `os.ReadFile` on `/proc/<pid>/smaps_rollup`. -/
inductive ReadErr where
  | notExist
  | permission
  | ioFailure (msg : String)
deriving DecidableEq, Repr

/-- The non-nil result of `ctx.Err()` once `ctx.Done()` is closed. -/
inductive CtxErr where
  | canceled
  | deadlineExceeded
deriving DecidableEq, Repr

/-- A non-nil Go `error` value, as far as this program produces one. -/
inductive Error where
  | ctx (cause : CtxErr)
  | readSmaps (cause : ReadErr)
  | other (msg : String)
deriving DecidableEq, Repr

/-! ## Go standard library text functions used by `Collect` -/

/-- Go `unicode.IsSpace`. -/
def isSpace (c : Char) : Bool :=
  let n := c.toNat
  n == 0x09 || n == 0x0A || n == 0x0B || n == 0x0C || n == 0x0D || n == 0x20 ||
  n == 0x85 || n == 0xA0 || n == 0x1680 || (0x2000 ≤ n && n ≤ 0x200A) ||
  n == 0x2028 || n == 0x2029 || n == 0x202F || n == 0x205F || n == 0x3000

/-- Worker of `splitLines`: `cur` is the current line, reversed. -/
def splitGo (cur : List Char) : List Char → List (List Char)
  | [] => [cur.reverse]
  | c :: cs => if c = '\n' then cur.reverse :: splitGo [] cs else splitGo (c :: cur) cs

/-- Go `strings.Split(s, "\n")`. -/
def splitLines (s : List Char) : List (List Char) := splitGo [] s

/-- Worker of `fields`: `cur` is the current field, reversed. -/
def fieldsGo (cur : List Char) : List Char → List (List Char)
  | [] => if cur.isEmpty then [] else [cur.reverse]
  | c :: cs =>
    if isSpace c then
      (if cur.isEmpty then fieldsGo [] cs else cur.reverse :: fieldsGo [] cs)
    else fieldsGo (c :: cur) cs

/-- Go `strings.Fields`. -/
def fields (s : List Char) : List (List Char) := fieldsGo [] s

/-- The value of a decimal digit. -/
def digitVal (c : Char) : Option Nat :=
  if 48 ≤ c.toNat ∧ c.toNat ≤ 57 then some (c.toNat - 48) else none

/-- Worker of `parseUint`: accumulate decimal digits, `none` on any other character. -/
def parseDigitsGo (n : Nat) : List Char → Option Nat
  | [] => some n
  | c :: cs =>
    match digitVal c with
    | none => none
    | some d => parseDigitsGo (n * 10 + d) cs

/-- The digits of Go `strconv.ParseUint(s, 10, 64)` read as an unbounded natural number;
`none` is the syntax error. The range check is made by `ParseInt`. -/
def parseUint (s : List Char) : Option Nat :=
  if s.isEmpty then none else parseDigitsGo 0 s

/-- The magnitude and range check of `strconv.ParseInt`. -/
def parseMagnitude (neg : Bool) (s : List Char) : Option Int :=
  match parseUint s with
  | none => none
  | some un =>
    if !neg && un ≥ 2 ^ 63 then none
    else if neg && un > 2 ^ 63 then none
    else some (if neg then -(un : Int) else (un : Int))

/-- Go `strconv.ParseInt(s, 10, 64)`; `none` stands for `err != nil` (syntax or range). -/
def ParseInt (s : List Char) : Option Int :=
  match s with
  | [] => none
  | c :: r =>
    if c = '+' then parseMagnitude false r
    else if c = '-' then parseMagnitude true r
    else parseMagnitude false s

/-! ## `RealMemoryCollector.Collect` -/

/-- The body of the `for _, line := range lines` loop of `Collect`. -/
def parseLine (metrics : MemoryMetrics) (line : List Char) : MemoryMetrics :=
  match fields line with
  | f0 :: f1 :: _ =>
    match ParseInt f1 with
    | none => metrics
    | some value =>
      if f0 = "Rss:".toList then { metrics with RSS := metrics.RSS ++ [value] }
      else if f0 = "Pss:".toList then { metrics with PSS := metrics.PSS ++ [value] }
      else if f0 = "Shared_Clean:".toList then
        { metrics with SharedClean := metrics.SharedClean ++ [value] }
      else if f0 = "Shared_Dirty:".toList then
        { metrics with SharedDirty := metrics.SharedDirty ++ [value] }
      else if f0 = "Private_Clean:".toList then
        { metrics with PrivateClean := metrics.PrivateClean ++ [value] }
      else if f0 = "Private_Dirty:".toList then
        { metrics with PrivateDirty := metrics.PrivateDirty ++ [value] }
      else metrics
  | _ => metrics

/-- The `// Calculate USS` step of `Collect`. -/
def calcUSS (metrics : MemoryMetrics) : MemoryMetrics :=
  match metrics.PrivateClean, metrics.PrivateDirty with
  | pc :: _, pd :: _ => { metrics with USS := metrics.USS ++ [wrap64 (pc + pd)] }
  | _, _ => metrics

/-- The part of `Collect` after a successful read: `data` is the file content and `now`
the value of `time.Now()`. -/
def parseRollup (data : List Char) (now : Time) : MemoryMetrics :=
  calcUSS ((splitLines data).foldl parseLine { Timestamps := [now] })

/-- `RealMemoryCollector.Collect`, as a function of the outcome of `os.ReadFile` and of
`time.Now()`. -/
def Collect (read : Except ReadErr (List Char)) (now : Time) : Except Error MemoryMetrics :=
  match read with
  | .error err => .error (.readSmaps err)
  | .ok data => .ok (parseRollup data now)

/-! ## A line-by-line description of the parsing loop -/

/-- The six metrics that `Collect` reads from the rollup text. -/
inductive Metric where
  | RSS
  | PSS
  | SharedClean
  | SharedDirty
  | PrivateClean
  | PrivateDirty
deriving DecidableEq, Repr

/-- The key of a metric in the rollup text. -/
def Metric.key : Metric → List Char
  | .RSS => "Rss:".toList
  | .PSS => "Pss:".toList
  | .SharedClean => "Shared_Clean:".toList
  | .SharedDirty => "Shared_Dirty:".toList
  | .PrivateClean => "Private_Clean:".toList
  | .PrivateDirty => "Private_Dirty:".toList

/-- The list of a metric in a sample. -/
def Metric.get : Metric → MemoryMetrics → List Int
  | .RSS, m => m.RSS
  | .PSS, m => m.PSS
  | .SharedClean, m => m.SharedClean
  | .SharedDirty, m => m.SharedDirty
  | .PrivateClean, m => m.PrivateClean
  | .PrivateDirty, m => m.PrivateDirty

/-- All six metrics. -/
def Metric.all : List Metric :=
  [.RSS, .PSS, .SharedClean, .SharedDirty, .PrivateClean, .PrivateDirty]

/-- The value a line yields for the key `key`: the line has at least two
whitespace-separated fields, the first is `key` and the second is a base-10 int64. -/
def lineValue (key : List Char) (line : List Char) : Option Int :=
  match fields line with
  | f0 :: f1 :: _ => if f0 = key then ParseInt f1 else none
  | _ => none

/-- A line that has fewer than two fields, or whose first field is not one of the six
keys, or whose second field is not a base-10 int64. -/
def isSkipped (line : List Char) : Bool :=
  match fields line with
  | f0 :: f1 :: _ => !(Metric.all.map Metric.key).contains f0 || (ParseInt f1).isNone
  | _ => true

/-- The values a text yields for a metric, in the order of its lines. -/
def textValues (k : Metric) (data : List Char) : List Int :=
  (splitLines data).filterMap (lineValue k.key)

/-! ## `monitorMemory` -/

/-- One iteration of the `select` of `monitorMemory`: the case that fired. -/
inductive Event where
  /-- `<-ctx.Done()`, with the value of `ctx.Err()`. -/
  | ctxDone (cause : CtxErr)
  /-- `err := <-processDone`, with the result of `pm.Wait()`. -/
  | processDone (waitErr : Option Error)
  /-- `<-ticker.C`, with the result of `mc.Collect(ctx)`. -/
  | tick (collected : Except Error MemoryMetrics)

/-- The `// Append new metrics` block of `monitorMemory`. -/
def appendMetrics (metrics newMetrics : MemoryMetrics) : MemoryMetrics :=
  { Timestamps := metrics.Timestamps ++ newMetrics.Timestamps
    RSS := metrics.RSS ++ newMetrics.RSS
    PSS := metrics.PSS ++ newMetrics.PSS
    USS := metrics.USS ++ newMetrics.USS
    SharedClean := metrics.SharedClean ++ newMetrics.SharedClean
    SharedDirty := metrics.SharedDirty ++ newMetrics.SharedDirty
    PrivateClean := metrics.PrivateClean ++ newMetrics.PrivateClean
    PrivateDirty := metrics.PrivateDirty ++ newMetrics.PrivateDirty }

/-- The `for { select { ... } }` loop of `monitorMemory` started with the accumulated
`metrics`. `none` means that the events ran out while the loop was still waiting. -/
def monitorLoop (metrics : MemoryMetrics) : List Event → Option (MemoryMetrics × Option Error)
  | [] => none
  | .ctxDone cause :: _ => some (metrics, some (.ctx cause))
  | .processDone _ :: _ => some (metrics, none)
  | .tick (.error err) :: _ => some (metrics, some err)
  | .tick (.ok newMetrics) :: rest => monitorLoop (appendMetrics metrics newMetrics) rest

/-- `monitorMemory`: the loop started on `&memory.MemoryMetrics{}`. -/
def monitorMemory (events : List Event) : Option (MemoryMetrics × Option Error) :=
  monitorLoop {} events

/-- The events of `n` ticks whose collects succeeded with the given samples. -/
def okTicks (samples : List MemoryMetrics) : List Event :=
  samples.map (fun s => Event.tick (.ok s))

/-- The in-order concatenation of a list of samples, list by list. -/
def seriesOf (samples : List MemoryMetrics) : MemoryMetrics :=
  { Timestamps := (samples.map (·.Timestamps)).flatten
    RSS := (samples.map (·.RSS)).flatten
    PSS := (samples.map (·.PSS)).flatten
    USS := (samples.map (·.USS)).flatten
    SharedClean := (samples.map (·.SharedClean)).flatten
    SharedDirty := (samples.map (·.SharedDirty)).flatten
    PrivateClean := (samples.map (·.PrivateClean)).flatten
    PrivateDirty := (samples.map (·.PrivateDirty)).flatten }

/-- The tick event of the real collector: `os.ReadFile` succeeded with `r.1` at time `r.2`. -/
def realTick (r : List Char × Time) : Event := Event.tick (Collect (.ok r.1) r.2)

/-! ## `pkg/output`: statistics -/

/-- `output.Statistics`; the two `float64` fields live in `F`. -/
structure Statistics (F : Type) where
  Min : Int
  Max : Int
  Avg : F
  Std : F
  Count : Nat
  Unit : String
deriving DecidableEq, Repr

/-- The body of the first loop of `calculateStats` on the triple `(min, max, sum)`. -/
def scanStep (acc : Int × Int × Int) (v : Int) : Int × Int × Int :=
  (if v < acc.1 then v else acc.1,
   if v > acc.2.1 then v else acc.2.1,
   wrap64 (acc.2.2 + v))

/-- The body of the second loop of `calculateStats`: `sumSq += diff * diff`. -/
def sumSqStep {F : Type} [Field F] (avg : F) (sumSq : F) (v : Int) : F :=
  sumSq + ((v : F) - avg) * ((v : F) - avg)

/-- `calculateStats`. -/
def calculateStats {F : Type} [Field F] (sqrt : F → F) (values : List Int) : Statistics F :=
  match values with
  | [] => { Min := 0, Max := 0, Avg := 0, Std := 0, Count := 0, Unit := "kB" }
  | v0 :: _ =>
    let acc := values.foldl scanStep (v0, v0, 0)
    let avg : F := (acc.2.2 : F) / (values.length : F)
    let sumSq : F := values.foldl (sumSqStep avg) 0
    let variance : F := sumSq / (values.length : F)
    let std : F := sqrt variance
    { Min := acc.1, Max := acc.2.1, Avg := avg, Std := std,
      Count := values.length, Unit := "kB" }

/-! ## `pkg/output`: formatting and `WriteResults` -/

/-- `config.Config`. -/
structure Config (F : Type) where
  Frequency : F
  OutputFile : String
  JSONOutput : Bool
  Verbose : Bool
  Command : String
  PID : Int
  StartTime : Time

/-- A Go slice index expression `ts[i]`; `none` is the index-out-of-range panic. -/
def indexTime (ts : List Time) (i : Int) : Option Time :=
  if 0 ≤ i then ts[i.toNat]? else none

/-- Go `Time.Sub`: the difference in nanoseconds, saturated to the range of a `Duration`. -/
def timeSub (t u : Time) : Int :=
  if t - u > 2 ^ 63 - 1 then 2 ^ 63 - 1
  else if t - u < -(2 ^ 63) then -(2 ^ 63)
  else t - u

/-- Go `Duration.Seconds`: whole seconds plus the fractional part. -/
def durationSeconds {F : Type} [Field F] (d : Int) : F :=
  ((Int.tdiv d 1000000000 : Int) : F) + ((Int.tmod d 1000000000 : Int) : F) / 1000000000

/-- The expression
`metrics.Timestamps[len(metrics.Timestamps)-1].Sub(metrics.Timestamps[0]).Seconds()`
of both formatters; `none` when one of the two index expressions panics. -/
def seriesDuration {F : Type} [Field F] (ts : List Time) : Option F :=
  match indexTime ts ((ts.length : Int) - 1) with
  | none => none
  | some last =>
    match indexTime ts 0 with
    | none => none
    | some first => some (durationSeconds (timeSub last first))

/-- The `Metadata` block of `output.OutputData`. -/
structure Metadata (F : Type) where
  Command : String
  PID : Int
  Frequency : F
  Duration : F
  Samples : Nat
  StartTime : Time

/-- `output.OutputData`; the map is listed in the order of the assignments. -/
structure OutputData (F : Type) where
  Metadata : Metadata F
  Statistics : List (String × Statistics F)

/-- One data record of the CSV report, before the fields are printed. -/
structure CSVRecord (F : Type) where
  metric : String
  stats : Statistics F
  duration : F

/-- What a formatter's `Format` returns, before serialisation to bytes. -/
inductive Formatted (F : Type) where
  | json (data : OutputData F)
  | csv (header : List String) (records : List (CSVRecord F))

/-- The seven metric lists of a series with the names the formatters give them. -/
def metricsMap (metrics : MemoryMetrics) : List (String × List Int) :=
  [("RSS", metrics.RSS), ("PSS", metrics.PSS), ("USS", metrics.USS),
   ("SHARED_CLEAN", metrics.SharedClean), ("SHARED_DIRTY", metrics.SharedDirty),
   ("PRIVATE_CLEAN", metrics.PrivateClean), ("PRIVATE_DIRTY", metrics.PrivateDirty)]

/-- `JSONFormatter.Format`, up to `json.MarshalIndent`; `none` is a run-time panic. -/
def JSONFormatter.Format {F : Type} [Field F] (sqrt : F → F) (metrics : MemoryMetrics)
    (config : Config F) : Option (Formatted F) :=
  match seriesDuration ts with
  | none => none
  | some duration =>
    some (.json
      { Metadata :=
          { Command := config.Command, PID := config.PID, Frequency := config.Frequency,
            Duration := duration, Samples := metrics.Timestamps.length,
            StartTime := config.StartTime }
        Statistics := (metricsMap metrics).map (fun kv => (kv.1, calculateStats sqrt kv.2)) })
where ts := metrics.Timestamps

/-- `CSVFormatter.Format`, up to the printing of the fields; the records are listed in
the order of the map literal (Go leaves the iteration order of a map unspecified).
`none` is a run-time panic. -/
def CSVFormatter.Format {F : Type} [Field F] (sqrt : F → F) (metrics : MemoryMetrics)
    (_config : Config F) : Option (Formatted F) :=
  match seriesDuration metrics.Timestamps with
  | none => none
  | some duration =>
    some (.csv ["metric", "min_kb", "max_kb", "avg_kb", "std_kb", "samples", "duration_sec"]
      ((metricsMap metrics).map
        (fun kv => { metric := kv.1, stats := calculateStats sqrt kv.2, duration := duration })))

/-- `NewFormatter` followed by the call of the chosen formatter's `Format`. -/
def Format {F : Type} [Field F] (sqrt : F → F) (metrics : MemoryMetrics) (cfg : Config F) :
    Option (Formatted F) :=
  if cfg.JSONOutput then JSONFormatter.Format sqrt metrics cfg
  else CSVFormatter.Format sqrt metrics cfg

/-- How a call of `WriteResults` ends. -/
inductive WriteOutcome (F : Type) where
  /-- "No data collected" is printed and `nil` returned; `Format` is not called. -/
  | noData
  /-- `Format` was called and returned `out`, which is then written to the output file
  or to standard output (the outcome of that write is not modelled). -/
  | formatted (out : Formatted F)
  /-- `Format` was called and panicked on an index expression. -/
  | panicked

/-- `WriteResults`. -/
def WriteResults {F : Type} [Field F] (sqrt : F → F) (metrics : MemoryMetrics)
    (cfg : Config F) : WriteOutcome F :=
  if metrics.Timestamps.length = 0 then .noData
  else
    match Format sqrt metrics cfg with
    | none => .panicked
    | some out => .formatted out

/-- What `main` does after the child was started: the error it logs as
"Memory monitoring error", if any, and the outcome of `WriteResults`. -/
structure MainReport (F : Type) where
  loggedError : Option Error
  output : WriteOutcome F

/-- The `// Monitor memory` and `// Output results` steps of `main`; `none` while
`monitorMemory` has not returned. -/
def mainReport {F : Type} [Field F] (sqrt : F → F) (cfg : Config F) (events : List Event) :
    Option (MainReport F) :=
  match monitorMemory events with
  | none => none
  | some (metrics, err) => some { loggedError := err, output := WriteResults sqrt metrics cfg }

/-! ## Lemmas on the monitoring loop -/

theorem appendMetrics_assoc (a b c : MemoryMetrics) :
    appendMetrics (appendMetrics a b) c = appendMetrics a (appendMetrics b c) := by
  simp [appendMetrics, List.append_assoc]

theorem appendMetrics_empty_left (a : MemoryMetrics) : appendMetrics {} a = a := by
  cases a; simp [appendMetrics]

theorem appendMetrics_empty_right (a : MemoryMetrics) : appendMetrics a {} = a := by
  cases a; simp [appendMetrics]

theorem seriesOf_nil : seriesOf [] = {} := by
  simp [seriesOf]

theorem seriesOf_cons (s : MemoryMetrics) (ss : List MemoryMetrics) :
    seriesOf (s :: ss) = appendMetrics s (seriesOf ss) := by
  simp [seriesOf, appendMetrics]

theorem monitorLoop_okTicks (samples : List MemoryMetrics) (acc : MemoryMetrics)
    (tail : List Event) :
    monitorLoop acc (okTicks samples ++ tail)
      = monitorLoop (appendMetrics acc (seriesOf samples)) tail := by
  induction samples generalizing acc with
  | nil => simp [okTicks, seriesOf_nil, appendMetrics_empty_right]
  | cons s ss ih =>
    have h := ih (appendMetrics acc s)
    simp only [okTicks, List.map_cons, List.cons_append] at h ⊢
    rw [monitorLoop, h, seriesOf_cons, appendMetrics_assoc]

theorem monitorMemory_okTicks (samples : List MemoryMetrics) (tail : List Event) :
    monitorMemory (okTicks samples ++ tail) = monitorLoop (seriesOf samples) tail := by
  rw [monitorMemory, monitorLoop_okTicks, appendMetrics_empty_left]

/-! ## Lemmas on the real collector inside the loop -/

theorem parseLine_Timestamps (m : MemoryMetrics) (line : List Char) :
    (parseLine m line).Timestamps = m.Timestamps := by
  unfold parseLine
  split
  · split
    · rfl
    · repeat (first | rfl | split)
  · rfl

theorem foldl_parseLine_Timestamps (lines : List (List Char)) (m : MemoryMetrics) :
    (lines.foldl parseLine m).Timestamps = m.Timestamps := by
  induction lines generalizing m with
  | nil => rfl
  | cons l ls ih => rw [List.foldl_cons, ih, parseLine_Timestamps]

theorem calcUSS_Timestamps (m : MemoryMetrics) : (calcUSS m).Timestamps = m.Timestamps := by
  unfold calcUSS
  split <;> rfl

theorem parseRollup_Timestamps (data : List Char) (now : Time) :
    (parseRollup data now).Timestamps = [now] := by
  rw [parseRollup, calcUSS_Timestamps, foldl_parseLine_Timestamps]

theorem realTicks_eq_okTicks (reads : List (List Char × Time)) :
    reads.map realTick = okTicks (reads.map (fun r => parseRollup r.1 r.2)) := by
  simp [okTicks, realTick, Collect]

theorem seriesOf_real_Timestamps (reads : List (List Char × Time)) :
    (seriesOf (reads.map (fun r => parseRollup r.1 r.2))).Timestamps = reads.map (·.2) := by
  induction reads with
  | nil => rfl
  | cons r rs ih =>
    rw [List.map_cons, seriesOf_cons]
    simp only [appendMetrics, parseRollup_Timestamps, ih]
    rfl

/-! ## The sampling coordinator: terminal events -/

/-- C1: when the collects of the first `n` processed ticks succeed with `samples` and the
collect of the next processed tick fails with `e`, `monitorMemory` returns the in-order
concatenation of exactly those `n` samples, list by list, together with `e` itself,
whatever events would follow. With the real collector the series holds exactly the `n`
capture times, so a failure on the 3rd tick leaves exactly 2 samples. -/
theorem monitorMemory_collect_failure (samples : List MemoryMetrics) (e : Error)
    (reads : List (List Char × Time)) (cause : ReadErr) (now : Time) (rest : List Event) :
    monitorMemory (okTicks samples ++ Event.tick (.error e) :: rest)
        = some (seriesOf samples, some e)
      ∧ (seriesOf samples).Timestamps = (samples.map (·.Timestamps)).flatten
      ∧ (seriesOf samples).RSS = (samples.map (·.RSS)).flatten
      ∧ (seriesOf samples).PSS = (samples.map (·.PSS)).flatten
      ∧ (seriesOf samples).USS = (samples.map (·.USS)).flatten
      ∧ (seriesOf samples).SharedClean = (samples.map (·.SharedClean)).flatten
      ∧ (seriesOf samples).SharedDirty = (samples.map (·.SharedDirty)).flatten
      ∧ (seriesOf samples).PrivateClean = (samples.map (·.PrivateClean)).flatten
      ∧ (seriesOf samples).PrivateDirty = (samples.map (·.PrivateDirty)).flatten
      ∧ (∃ series,
          monitorMemory (reads.map realTick ++ Event.tick (Collect (.error cause) now) :: rest)
            = some (series, some (Error.readSmaps cause))
          ∧ series = seriesOf (reads.map (fun r => parseRollup r.1 r.2))
          ∧ series.Timestamps = reads.map (·.2)
          ∧ series.Timestamps.length = reads.length) := by
  refine ⟨?_, rfl, rfl, rfl, rfl, rfl, rfl, rfl, rfl, ?_⟩
  · rw [monitorMemory_okTicks, monitorLoop]
  · refine ⟨_, ?_, rfl, seriesOf_real_Timestamps reads, ?_⟩
    · rw [realTicks_eq_okTicks, monitorMemory_okTicks]
      simp [Collect, monitorLoop]
    · rw [seriesOf_real_Timestamps, List.length_map]

/-- C2: when cancellation is the event observed after `n` successfully processed ticks,
`monitorMemory` returns exactly the concatenation of those `n` samples and the non-nil
cancellation cause; with the real collector the timestamp count is `n`, and with no tick
before the cancellation the series is empty. -/
theorem monitorMemory_cancellation (samples : List MemoryMetrics) (c : CtxErr)
    (reads : List (List Char × Time)) (rest : List Event) :
    monitorMemory (okTicks samples ++ Event.ctxDone c :: rest)
        = some (seriesOf samples, some (Error.ctx c))
      ∧ (∃ series,
          monitorMemory (reads.map realTick ++ Event.ctxDone c :: rest)
            = some (series, some (Error.ctx c))
          ∧ series = seriesOf (reads.map (fun r => parseRollup r.1 r.2))
          ∧ series.Timestamps = reads.map (·.2)
          ∧ series.Timestamps.length = reads.length)
      ∧ monitorMemory (Event.ctxDone c :: rest) = some ({}, some (Error.ctx c)) := by
  refine ⟨?_, ⟨_, ?_, rfl, seriesOf_real_Timestamps reads, ?_⟩, rfl⟩
  · rw [monitorMemory_okTicks, monitorLoop]
  · rw [realTicks_eq_okTicks, monitorMemory_okTicks, monitorLoop]
  · rw [seriesOf_real_Timestamps, List.length_map]

/-- C3: when child termination is the event observed after `n` successfully processed
ticks, `monitorMemory` returns exactly the in-order concatenation of those `n` samples
and a nil error, whatever the result of the wait: the termination event adds no sample. -/
theorem monitorMemory_child_termination (samples : List MemoryMetrics)
    (waitErr : Option Error) (reads : List (List Char × Time)) (rest : List Event) :
    monitorMemory (okTicks samples ++ Event.processDone waitErr :: rest)
        = some (seriesOf samples, none)
      ∧ (∃ series,
          monitorMemory (reads.map realTick ++ Event.processDone waitErr :: rest)
            = some (series, none)
          ∧ series = seriesOf (reads.map (fun r => parseRollup r.1 r.2))
          ∧ series.Timestamps = reads.map (·.2)) := by
  refine ⟨?_, ⟨_, ?_, rfl, seriesOf_real_Timestamps reads⟩⟩
  · rw [monitorMemory_okTicks, monitorLoop]
  · rw [realTicks_eq_okTicks, monitorMemory_okTicks, monitorLoop]

/-! ## Lemmas on `calculateStats` -/

theorem wrap64_of_inInt64 (x : Int) (h : inInt64 x) : wrap64 x = x := by
  unfold inInt64 at h
  unfold wrap64
  rw [Int.emod_eq_of_lt (by omega) (by omega)]
  omega

/-- C6: on the empty list `calculateStats` returns Count 0, Min 0, Max 0, Avg 0, Std 0 and
Unit "kB" without inspecting an element or dividing, and on every list the Unit is
"kB". -/
theorem calculateStats_empty {F : Type} [Field F] (sqrt : F → F) (values : List Int) :
    calculateStats sqrt []
        = { Min := 0, Max := 0, Avg := 0, Std := 0, Count := 0, Unit := "kB" }
      ∧ (calculateStats sqrt values).Unit = "kB" := by
  refine ⟨rfl, ?_⟩
  cases values with
  | nil => rfl
  | cons v0 vs => rfl


theorem Metric.key_injective (j k : Metric) (h : j.key = k.key) : j = k := by
  cases j <;> cases k <;> first | rfl | exact absurd h (by decide)

theorem parseLine_get (k : Metric) (m : MemoryMetrics) (l : List Char) :
    k.get (parseLine m l) = k.get m ++ (lineValue k.key l).toList := by
  unfold parseLine lineValue
  cases hf : fields l with
  | nil => simp
  | cons f0 t =>
    cases t with
    | nil => simp
    | cons f1 r =>
      simp only []
      cases hp : ParseInt f1 with
      | none => simp
      | some v =>
        simp only []
        cases k <;> simp only [Metric.key, Metric.get] <;> split_ifs <;> simp_all

theorem parseLine_USS (m : MemoryMetrics) (line : List Char) :
    (parseLine m line).USS = m.USS := by
  unfold parseLine
  split
  · split
    · rfl
    · repeat (first | rfl | split)
  · rfl

theorem isSkipped_lineValue (l : List Char) (h : isSkipped l = true) (k : Metric) :
    lineValue k.key l = none := by
  unfold isSkipped at h
  unfold lineValue
  split
  · rename_i f0 f1 r hf
    rw [hf] at h
    simp only [Bool.or_eq_true, Bool.not_eq_true', Option.isNone_iff_eq_none] at h
    split_ifs with hk
    · rcases h with h | h
      · exfalso
        subst hk
        cases k <;> simp [Metric.all, Metric.key] at h
      · exact h
    · rfl
  · rfl

theorem splitGo_cons (cur : List Char) (c : Char) (cs : List Char) :
    splitGo cur (c :: cs)
      = if c = '\n' then cur.reverse :: splitGo [] cs else splitGo (c :: cur) cs := rfl

theorem splitGo_append (a b cur : List Char) :
    splitGo cur (a ++ '\n' :: b) = splitGo cur a ++ splitGo [] b := by
  induction a generalizing cur with
  | nil => simp [splitGo]
  | cons c cs ih =>
    rw [List.cons_append, splitGo_cons, splitGo_cons]
    split_ifs
    · rw [ih, List.cons_append]
    · exact ih _

theorem splitGo_line (l cur : List Char) (h : '\n' ∉ l) :
    splitGo cur l = [cur.reverse ++ l] := by
  induction l generalizing cur with
  | nil => simp [splitGo]
  | cons c cs ih =>
    have hc : c ≠ '\n' := fun e => h (e ▸ List.mem_cons_self _ _)
    have hcs : '\n' ∉ cs := fun e => h (List.mem_cons_of_mem _ e)
    simp [splitGo, hc, ih _ hcs]

theorem splitLines_append (a b : List Char) :
    splitLines (a ++ '\n' :: b) = splitLines a ++ splitLines b :=
  splitGo_append a b []

theorem splitLines_line (l : List Char) (h : '\n' ∉ l) : splitLines l = [l] := by
  simpa using splitGo_line l [] h

theorem foldl_parseLine_get (k : Metric) (lines : List (List Char)) (m : MemoryMetrics) :
    k.get (lines.foldl parseLine m) = k.get m ++ lines.filterMap (lineValue k.key) := by
  induction lines generalizing m with
  | nil => simp
  | cons l ls ih =>
    rw [List.foldl_cons, ih, parseLine_get, List.filterMap_cons]
    cases lineValue k.key l <;> simp

theorem foldl_parseLine_USS (lines : List (List Char)) (m : MemoryMetrics) :
    (lines.foldl parseLine m).USS = m.USS := by
  induction lines generalizing m with
  | nil => rfl
  | cons l ls ih => rw [List.foldl_cons, ih, parseLine_USS]

theorem foldl_parseLine_eq (lines : List (List Char)) (now : Time) :
    lines.foldl parseLine { Timestamps := [now] }
      = { RSS := lines.filterMap (lineValue Metric.RSS.key)
          PSS := lines.filterMap (lineValue Metric.PSS.key)
          USS := []
          SharedClean := lines.filterMap (lineValue Metric.SharedClean.key)
          SharedDirty := lines.filterMap (lineValue Metric.SharedDirty.key)
          PrivateClean := lines.filterMap (lineValue Metric.PrivateClean.key)
          PrivateDirty := lines.filterMap (lineValue Metric.PrivateDirty.key)
          Timestamps := [now] } := by
  have h1 := foldl_parseLine_get .RSS lines { Timestamps := [now] }
  have h2 := foldl_parseLine_get .PSS lines { Timestamps := [now] }
  have h3 := foldl_parseLine_get .SharedClean lines { Timestamps := [now] }
  have h4 := foldl_parseLine_get .SharedDirty lines { Timestamps := [now] }
  have h5 := foldl_parseLine_get .PrivateClean lines { Timestamps := [now] }
  have h6 := foldl_parseLine_get .PrivateDirty lines { Timestamps := [now] }
  have h7 := foldl_parseLine_USS lines { Timestamps := [now] }
  have h8 := foldl_parseLine_Timestamps lines { Timestamps := [now] }
  generalize lines.foldl parseLine { Timestamps := [now] } = M at h1 h2 h3 h4 h5 h6 h7 h8 ⊢
  cases M
  simp only [Metric.get, List.nil_append] at h1 h2 h3 h4 h5 h6 h7 h8
  simp only [h1, h2, h3, h4, h5, h6, h7, h8]

/-- The sample of a text, described list by list. -/
theorem parseRollup_eq (data : List Char) (now : Time) :
    parseRollup data now
      = calcUSS
        { RSS := textValues .RSS data
          PSS := textValues .PSS data
          USS := []
          SharedClean := textValues .SharedClean data
          SharedDirty := textValues .SharedDirty data
          PrivateClean := textValues .PrivateClean data
          PrivateDirty := textValues .PrivateDirty data
          Timestamps := [now] } := by
  rw [parseRollup, foldl_parseLine_eq]
  rfl

theorem calcUSS_get (k : Metric) (m : MemoryMetrics) : k.get (calcUSS m) = k.get m := by
  unfold calcUSS
  split <;> cases k <;> rfl

theorem parseRollup_get (k : Metric) (data : List Char) (now : Time) :
    k.get (parseRollup data now) = textValues k data := by
  rw [parseRollup_eq, calcUSS_get]
  cases k <;> rfl

theorem textValues_append (k : Metric) (a b : List Char) :
    textValues k (a ++ '\n' :: b) = textValues k a ++ textValues k b := by
  simp [textValues, splitLines_append]

theorem textValues_line (k : Metric) (l : List Char) (h : '\n' ∉ l) :
    textValues k l = (lineValue k.key l).toList := by
  rw [textValues, splitLines_line l h]
  cases hv : lineValue k.key l <;> simp [hv]

theorem parseRollup_congr (d1 d2 : List Char) (now : Time)
    (h : ∀ k : Metric, textValues k d1 = textValues k d2) :
    parseRollup d1 now = parseRollup d2 now := by
  rw [parseRollup_eq, parseRollup_eq, h .RSS, h .PSS, h .SharedClean, h .SharedDirty,
    h .PrivateClean, h .PrivateDirty]

/-! ## The sample source: the claims -/

/-- C7 as stated fails: a text with Private_Clean 9223372036854775807 and Private_Dirty 1
yields both values, and the single USS value is the wrapped int64 sum
-9223372036854775808, not private-clean plus private-dirty. -/
theorem Collect_USS_wraps :
    textValues .PrivateClean
        "Private_Clean: 9223372036854775807 kB\nPrivate_Dirty: 1 kB".toList
        = [9223372036854775807]
      ∧ textValues .PrivateDirty
        "Private_Clean: 9223372036854775807 kB\nPrivate_Dirty: 1 kB".toList = [1]
      ∧ (parseRollup "Private_Clean: 9223372036854775807 kB\nPrivate_Dirty: 1 kB".toList 0).USS
        = [-9223372036854775808]
      ∧ (parseRollup "Private_Clean: 9223372036854775807 kB\nPrivate_Dirty: 1 kB".toList 0).USS
        ≠ [9223372036854775807 + 1] := by
  decide

/-- C7, amended: the private-clean and private-dirty lists of a sample are the values the
text yields for the two keys; when the text yields both, the sample carries exactly one
USS value, the int64 (wrapping) sum of the first private-clean and the first
private-dirty value of that read, which is their exact sum whenever that sum fits in an
int64; when either is absent, the USS list is empty. -/
theorem Collect_USS (data : List Char) (now : Time) :
    (parseRollup data now).PrivateClean = textValues .PrivateClean data
      ∧ (parseRollup data now).PrivateDirty = textValues .PrivateDirty data
      ∧ (∀ pc pcs pd pds, textValues .PrivateClean data = pc :: pcs →
          textValues .PrivateDirty data = pd :: pds →
          (parseRollup data now).USS = [wrap64 (pc + pd)]
          ∧ (inInt64 (pc + pd) → (parseRollup data now).USS = [pc + pd]))
      ∧ (textValues .PrivateClean data = [] ∨ textValues .PrivateDirty data = [] →
          (parseRollup data now).USS = []) := by
  refine ⟨parseRollup_get .PrivateClean data now, parseRollup_get .PrivateDirty data now, ?_, ?_⟩
  · intro pc pcs pd pds h1 h2
    have h : (parseRollup data now).USS = [wrap64 (pc + pd)] := by
      rw [parseRollup_eq, h1, h2]
      rfl
    exact ⟨h, fun hin => by rw [h, wrap64_of_inInt64 _ hin]⟩
  · intro h
    rw [parseRollup_eq]
    rcases h with h | h
    · rw [h]; rfl
    · rw [h]
      unfold calcUSS
      split
      · rename_i heq
        exact absurd heq (by simp)
      · rfl

/-- C8: the parsing step of `Collect` on a text that was read always returns a sample;
each of the six lists holds exactly the values of the lines with its key, so a
recognised well-formed line adds its value, as parsed, to the list of its own key and to
no other; and inserting or removing a line that has fewer than two fields, an
unrecognised first field or a second field that is not a base-10 int64 leaves the
sample unchanged. -/
theorem Collect_parse (data a b l : List Char) (now : Time)
    (hl : '\n' ∉ l) (hs : isSkipped l = true) :
    Collect (.ok data) now = .ok (parseRollup data now)
      ∧ (∀ k : Metric, k.get (parseRollup data now) = textValues k data)
      ∧ parseRollup (a ++ '\n' :: (l ++ '\n' :: b)) now = parseRollup (a ++ '\n' :: b) now
      ∧ parseRollup (l ++ '\n' :: b) now = parseRollup b now
      ∧ parseRollup (a ++ '\n' :: l) now = parseRollup a now
      ∧ (∀ line : List Char, '\n' ∉ line → ∀ k : Metric,
          textValues k (a ++ '\n' :: (line ++ '\n' :: b))
            = textValues k a ++ (lineValue k.key line).toList ++ textValues k b)
      ∧ (∀ line f0 f1 rest v, fields line = f0 :: f1 :: rest → ParseInt f1 = some v →
          ∀ k : Metric, lineValue k.key line = if f0 = k.key then some v else none)
      ∧ (∀ j k : Metric, j.key = k.key → j = k) := by
  have hnone : ∀ k : Metric, textValues k l = [] := fun k => by
    rw [textValues_line k l hl, isSkipped_lineValue l hs k]; rfl
  refine ⟨rfl, fun k => parseRollup_get k data now, ?_, ?_, ?_, ?_, ?_, Metric.key_injective⟩
  · apply parseRollup_congr
    intro k
    rw [textValues_append, textValues_append, textValues_append, hnone, List.nil_append]
  · apply parseRollup_congr
    intro k
    rw [textValues_append, hnone, List.nil_append]
  · apply parseRollup_congr
    intro k
    rw [textValues_append, hnone, List.append_nil]
  · intro line hline k
    rw [textValues_append, textValues_append, textValues_line k line hline, List.append_assoc]
  · intro line f0 f1 rest v hf hp k
    unfold lineValue
    rw [hf]
    simp only [hp]

/-- C8 at a text of two recognised lines and the skipped line "VmFlags: rd wr". -/
theorem Collect_parse_witness :
    '\n' ∉ "VmFlags: rd wr".toList
      ∧ isSkipped "VmFlags: rd wr".toList = true
      ∧ parseRollup ("Rss: 100 kB".toList ++ '\n' :: ("VmFlags: rd wr".toList
            ++ '\n' :: "Pss: 50 kB".toList)) 7
          = parseRollup ("Rss: 100 kB".toList ++ '\n' :: "Pss: 50 kB".toList) 7
      ∧ (parseRollup ("Rss: 100 kB".toList ++ '\n' :: "Pss: 50 kB".toList) 7).RSS = [100] :=
  ⟨by decide, by decide,
    (Collect_parse [] "Rss: 100 kB".toList "Pss: 50 kB".toList "VmFlags: rd wr".toList 7
      (by decide) (by decide)).2.2.1,
    by decide⟩

/-! ## Failures of the sample source and the output stage -/

/-- C9 as stated fails: when the first tick finds that the rollup file does not exist,
`monitorMemory` returns the (empty) series together with a non-nil error, and `main`
logs it as a memory monitoring error, exactly as for a permission failure. -/
theorem monitorMemory_notExist_is_error :
    monitorMemory [Event.tick (Collect (.error ReadErr.notExist) 0)]
        = some ({}, some (Error.readSmaps ReadErr.notExist))
      ∧ monitorMemory [Event.tick (Collect (.error ReadErr.notExist) 0)] ≠ some ({}, none)
      ∧ monitorMemory [Event.processDone none] = some ({}, none)
      ∧ (monitorMemory [Event.tick (Collect (.error ReadErr.notExist) 0)]).map (·.2.isSome)
          = (monitorMemory [Event.tick (Collect (.error ReadErr.permission) 0)]).map
              (·.2.isSome) := by
  decide

/-- C9, amended: when a tick's collect fails for any reason, the disappearance of the
rollup interface included, `monitorMemory` returns the series accumulated so far
together with that failure, wrapped as a read failure of smaps_rollup; `main` logs it
as a monitoring error and still hands the accumulated series to `WriteResults`. -/
theorem monitorMemory_read_failure {F : Type} [Field F] (sqrt : F → F) (cfg : Config F)
    (samples : List MemoryMetrics) (cause : ReadErr) (now : Time) (rest : List Event) :
    monitorMemory (okTicks samples ++ Event.tick (Collect (.error cause) now) :: rest)
        = some (seriesOf samples, some (Error.readSmaps cause))
      ∧ mainReport sqrt cfg
          (okTicks samples ++ Event.tick (Collect (.error cause) now) :: rest)
        = some { loggedError := some (Error.readSmaps cause)
                 output := WriteResults sqrt (seriesOf samples) cfg } := by
  have h : monitorMemory (okTicks samples ++ Event.tick (Collect (.error cause) now) :: rest)
      = some (seriesOf samples, some (Error.readSmaps cause)) := by
    rw [monitorMemory_okTicks]
    rfl
  exact ⟨h, by rw [mainReport, h]⟩

theorem indexTime_zero (t : Time) (ts : List Time) : indexTime (t :: ts) 0 = some t := by
  simp [indexTime]

theorem indexTime_last (t : Time) (ts : List Time) :
    indexTime (t :: ts) (((t :: ts).length : Int) - 1) = some ((t :: ts).getLast (by simp)) := by
  have h : (((t :: ts).length : Int) - 1) = ((ts.length : Nat) : Int) := by
    rw [List.length_cons]; push_cast; ring
  rw [h, indexTime, if_pos (Int.natCast_nonneg _), Int.toNat_natCast,
    List.getLast_eq_getElem]
  simp

theorem seriesDuration_cons {F : Type} [Field F] (t : Time) (ts : List Time) :
    seriesDuration (t :: ts)
      = some (durationSeconds (timeSub ((t :: ts).getLast (by simp)) t) : F) := by
  rw [seriesDuration, indexTime_last, indexTime_zero]

theorem durationSeconds_zero {F : Type} [Field F] : (durationSeconds 0 : F) = 0 := by
  simp [durationSeconds]

/-- C10: `WriteResults` calls `Format` only on a series with at least one timestamp, where
both index expressions of the duration are in range for either formatter, so
`WriteResults` never panics; on a series without timestamps it returns success without
formatting; with exactly one timestamp the duration is 0. -/
theorem WriteResults_safe {F : Type} [Field F] (sqrt : F → F) (metrics : MemoryMetrics)
    (cfg : Config F) (t : Time) :
    (metrics.Timestamps.length = 0 → WriteResults sqrt metrics cfg = .noData)
      ∧ (0 < metrics.Timestamps.length →
          (∃ last first, indexTime metrics.Timestamps ((metrics.Timestamps.length : Int) - 1)
              = some last ∧ indexTime metrics.Timestamps 0 = some first
              ∧ (seriesDuration metrics.Timestamps : Option F)
                  = some (durationSeconds (timeSub last first)))
          ∧ (∃ out, JSONFormatter.Format sqrt metrics cfg = some out)
          ∧ (∃ out, CSVFormatter.Format sqrt metrics cfg = some out)
          ∧ ∃ out, Format sqrt metrics cfg = some out
              ∧ WriteResults sqrt metrics cfg = .formatted out)
      ∧ (seriesDuration [] : Option F) = none
      ∧ (seriesDuration [t] : Option F) = some 0 := by
  refine ⟨?_, ?_, rfl, ?_⟩
  · intro h
    rw [WriteResults, if_pos h]
  · intro h
    have hd : ∃ last first, indexTime metrics.Timestamps ((metrics.Timestamps.length : Int) - 1)
        = some last ∧ indexTime metrics.Timestamps 0 = some first
        ∧ (seriesDuration metrics.Timestamps : Option F)
            = some (durationSeconds (timeSub last first)) := by
      cases hts : metrics.Timestamps with
      | nil => rw [hts] at h; exact absurd h (by simp)
      | cons t0 ts =>
        exact ⟨_, _, indexTime_last t0 ts, indexTime_zero t0 ts, seriesDuration_cons t0 ts⟩
    obtain ⟨last, first, _, _, hdur⟩ := hd
    have hj : ∃ out, JSONFormatter.Format sqrt metrics cfg = some out := by
      simp only [JSONFormatter.Format, JSONFormatter.Format.ts, hdur]
      exact ⟨_, rfl⟩
    have hc : ∃ out, CSVFormatter.Format sqrt metrics cfg = some out := by
      simp only [CSVFormatter.Format, hdur]
      exact ⟨_, rfl⟩
    have hf : ∃ out, Format sqrt metrics cfg = some out := by
      unfold Format
      split_ifs
      · exact hj
      · exact hc
    refine ⟨⟨last, first, ‹_›, ‹_›, hdur⟩, hj, hc, ?_⟩
    obtain ⟨out, hout⟩ := hf
    refine ⟨out, hout, ?_⟩
    rw [WriteResults, if_neg (by omega), hout]
  · rw [seriesDuration_cons]
    simp [timeSub, durationSeconds_zero]

end MemrollupStats
